import Mathlib

/-!
Verification development for the RINEX 3 observation reader
(`src/georinex/obs3.py`).  The Python source is shallowly embedded below:
lines are `List Char`, Python string slices `ln[a:b]` become
`slice ln a b`, `datetime` values are modelled as exact microsecond counts
(`Int`) since the Unix epoch, fallible operations return `Option`/`Except`,
and uncaught Python exceptions surface as `none`/`.error`.  The
floating-point decimal-seconds field is modelled as an exact decimal
(numerator over a power of ten); binary-float rounding is below the
resolution any of the verified properties depend on.
-/

namespace Georinex

/-- A physical line of the input file, as a list of characters. -/
abbrev Line := List Char

/-- Python slice `l[a:b]` (half open, clamped at both ends). -/
def slice (l : List Char) (a b : Nat) : List Char :=
  (l.take b).drop a

/-- Whitespace in the sense of Python `str.strip()` / `str.split()`. -/
def isWs (c : Char) : Bool :=
  c = ' ' ∨ c = '\t' ∨ c = '\n' ∨ c = '\r' ∨ c = '\x0b' ∨ c = '\x0c'

/-- Strip leading and trailing whitespace (Python `str.strip()`). -/
def stripWs (l : List Char) : List Char :=
  ((l.dropWhile isWs).reverse.dropWhile isWs).reverse

/-- Value of a decimal digit character, if it is one. -/
def digitVal (c : Char) : Option Nat :=
  if '0' ≤ c ∧ c ≤ '9' then some (c.toNat - 48) else none

/-- Accumulate the value of a digit string; fails on a non-digit. -/
def digitsValAux : List Char → Nat → Option Nat
  | [], acc => some acc
  | c :: rest, acc =>
    match digitVal c with
    | none => none
    | some d => digitsValAux rest (acc * 10 + d)

/-- Value of a non-empty all-digit string. -/
def digitsVal : List Char → Option Nat
  | [] => none
  | c :: rest => digitsValAux (c :: rest) 0

/-- Python `int(s)` on a string: optional surrounding whitespace, optional
sign, then decimal digits.  (Exotic literal forms such as digit-group
underscores are not modelled; the fixed-width RINEX fields never use
them.) -/
def pyInt (l : List Char) : Option Int :=
  match stripWs l with
  | '+' :: ds => (digitsVal ds).map (fun n => (n : Int))
  | '-' :: ds => (digitsVal ds).map (fun n => -(n : Int))
  | ds => (digitsVal ds).map (fun n => (n : Int))

/-- An exact decimal number `num / 10 ^ pow`: the result of Python
`float()` on a plain fixed-point decimal literal, kept exact. -/
structure PyDec where
  num : Int
  pow : Nat
deriving DecidableEq

/-- Split a character list into its maximal leading run of digits and the
remainder. -/
def splitDigits : List Char → List Char × List Char
  | [] => ([], [])
  | c :: rest =>
    if ('0' ≤ c ∧ c ≤ '9') then
      let p := splitDigits rest
      (c :: p.1, p.2)
    else ([], c :: rest)

/-- Unsigned decimal literal: `digits`, `digits.`, `digits.digits` or
`.digits`; at least one digit overall and nothing after. -/
def pyFloatCore (ds : List Char) : Option PyDec :=
  let p := splitDigits ds
  match p.2 with
  | [] =>
    match digitsVal p.1 with
    | some n => some ⟨(n : Int), 0⟩
    | none => none
  | '.' :: rest2 =>
    let q := splitDigits rest2
    if q.2 ≠ [] then none
    else if p.1 = [] ∧ q.1 = [] then none
    else
      match digitsValAux p.1 0, digitsValAux q.1 0 with
      | some a, some b => some ⟨(a : Int) * 10 ^ q.1.length + (b : Int), q.1.length⟩
      | _, _ => none
  | _ => none

/-- Python `float(s)` on a plain decimal literal (exponent, `inf`, `nan`
forms are not modelled: the fixed-width RINEX numeric fields are plain
decimals).  The value is kept exact. -/
def pyFloat (l : List Char) : Option PyDec :=
  match stripWs l with
  | '+' :: ds => pyFloatCore ds
  | '-' :: ds => (pyFloatCore ds).map (fun x => ⟨-x.num, x.pow⟩)
  | ds => pyFloatCore ds

/-- `int(x % 1 * 1000000)` for an exact decimal `x`: Python `%` returns the
nonnegative fractional part, and `int` truncates the (nonnegative)
product, i.e. floors it. -/
def microFromDec (x : PyDec) : Int :=
  let p : Int := (10 : Int) ^ x.pow
  let fl := Int.fdiv x.num p
  Int.fdiv ((x.num - fl * p) * 1000000) p

/-- Leap year as in the proleptic Gregorian calendar used by
`datetime.date`. -/
def isLeap (y : Int) : Bool :=
  (y % 4 = 0 ∧ y % 100 ≠ 0) ∨ y % 400 = 0

/-- Number of days in a month, as validated by `datetime.datetime`. -/
def daysInMonth (y m : Int) : Int :=
  if m = 2 then (if isLeap y then 29 else 28)
  else if m = 4 ∨ m = 6 ∨ m = 9 ∨ m = 11 then 30
  else 31

/-- Days from 1970-01-01 to the given civil date (standard era-based
count; all intermediate quantities are nonnegative for years ≥ 1, so the
rounding mode of `/` is irrelevant). -/
def daysFromCivil (y m d : Int) : Int :=
  let yy := if m ≤ 2 then y - 1 else y
  let era := yy / 400
  let yoe := yy - era * 400
  let mp := (m + 9) % 12
  let doy := (153 * mp + 2) / 5 + d - 1
  let doe := yoe * 365 + yoe / 4 - yoe / 100 + doy
  era * 146097 + doe - 719468

/-- `datetime.datetime(y, mo, d, h, mi, s, micro)`: validates each field
the way the constructor does and returns the instant as microseconds
since 1970-01-01. -/
def mkDatetimeMicros (y mo d h mi s micro : Int) : Option Int :=
  if 1 ≤ y ∧ y ≤ 9999 ∧ 1 ≤ mo ∧ mo ≤ 12 ∧ 1 ≤ d ∧ d ≤ daysInMonth y mo
      ∧ 0 ≤ h ∧ h ≤ 23 ∧ 0 ≤ mi ∧ mi ≤ 59 ∧ 0 ≤ s ∧ s ≤ 59 then
    some ((((daysFromCivil y mo d * 24 + h) * 60 + mi) * 60 + s) * 1000000 + micro)
  else none

/-- `_timeobs` (obs3.py lines 165-181): convert a RINEX 3 epoch-header
line to a timestamp.  The line must begin with the marker `"> "`; the
fixed column ranges are parsed with `int`/`float`, and any parse or range
failure (a Python `ValueError`) is `none`. -/
def timeobs (ln : Line) : Option Int :=
  match ln with
  | '>' :: ' ' :: _ =>
    match pyInt (slice ln 2 6), pyInt (slice ln 7 9), pyInt (slice ln 10 12),
        pyInt (slice ln 13 15), pyInt (slice ln 16 18), pyInt (slice ln 19 21),
        pyFloat (slice ln 19 29) with
    | some y, some mo, some d, some h, some mi, some s, some fsec =>
      mkDatetimeMicros y mo d h mi s (microFromDec fsec)
    | _, _, _, _, _, _, _ => none
  | _ => none

/-- One accepted epoch of the scan: its timestamp, the satellite
identifiers (`ln[:3]` of each satellite line) and the accumulated raw
measurement text (`ln[3:]` of each satellite line). -/
structure Epoch where
  time : Int
  sv : List (List Char)
  raw : List Char
deriving DecidableEq

/-- Decision of the time-window / decimation filter for one epoch. -/
inductive FiltRes
  | skip
  | stop
  | accept (newLast : Option Int)
deriving DecidableEq

/-- Decimation part of the filter (obs3.py lines 110-117): with no
interval every epoch is accepted and the reference is untouched; the
first epoch accepted under an interval initialises the reference to its
own time; later epochs are skipped while `time - last_epoch < interval`,
and acceptance advances the reference by exactly one interval. -/
def intervalFilter (itv : Option Int) (last : Option Int) (t : Int) : FiltRes :=
  match itv with
  | none => .accept last
  | some ival =>
    match last with
    | none => .accept (some t)
    | some le => if t - le < ival then .skip else .accept (some (le + ival))

/-- Time filter (obs3.py lines 104-117): the window check runs first —
`continue` below the lower bound, `break` above the upper bound — then
the decimation check. -/
def timeFilter (tlim : Option (Int × Int)) (itv : Option Int)
    (last : Option Int) (t : Int) : FiltRes :=
  match tlim with
  | none => intervalFilter itv last t
  | some (lo, hi) =>
    if t < lo then .skip
    else if hi < t then .stop
    else intervalFilter itv last t

/-- State of the epoch scanner between lines: either expecting an
epoch-header line, or in the middle of reading the current epoch's
satellite lines (`k` lines still to read, with the satellite ids and raw
text accumulated so far). -/
inductive Mode
  | epoch
  | collect (t : Int) (k : Nat) (sv : List (List Char)) (raw : List Char)
deriving DecidableEq

/-- Does the line begin with `">"` (`ln.startswith(">")`, obs3.py line 82)? -/
def lnStartsGt (ln : Line) : Bool :=
  match ln with
  | '>' :: _ => true
  | [] => false
  | _ :: _ => false

/-- The epoch-scanning loop of `rinexobs3` (obs3.py lines 81-123),
one input line per step.  A line not starting with `">"` ends the scan; a
line whose timestamp extraction fails is skipped; otherwise the declared
satellite count `int(ln[33:35])` of follow-on lines is read (at end of
file `readline()` returns the empty string, hence the empty-identifier
padding), then the time filter either skips the epoch, stops the scan, or
accepts it.  An unparsable satellite count is an uncaught `ValueError`
(`none`).  The collected receiver-clock offsets (line 92) and the
dataset assembly itself (`_epoch`) are not needed by any claim and are
not modelled; accepted epochs are returned in order together with the
final decimation reference. -/
def scanLoop (tlim : Option (Int × Int)) (itv : Option Int) :
    List Line → Mode → Option Int → Option (List Epoch × Option Int)
  | [], .epoch, last => some ([], last)
  | [], .collect t k sv raw, last =>
    match timeFilter tlim itv last t with
    | .skip => some ([], last)
    | .stop => some ([], last)
    | .accept l2 => some ([⟨t, sv ++ List.replicate k [], raw⟩], l2)
  | ln :: rest, .epoch, last =>
    if lnStartsGt ln then
      match timeobs ln with
      | none => scanLoop tlim itv rest .epoch last
      | some t =>
        match pyInt (slice ln 33 35) with
        | none => none
        | some ns =>
          if ns ≤ 0 then
            match timeFilter tlim itv last t with
            | .skip => scanLoop tlim itv rest .epoch last
            | .stop => some ([], last)
            | .accept l2 =>
              (scanLoop tlim itv rest .epoch l2).map
                (fun p => (⟨t, [], []⟩ :: p.1, p.2))
          else scanLoop tlim itv rest (.collect t ns.toNat [] []) last
    else some ([], last)
  | ln :: rest, .collect t k sv raw, last =>
    if k ≤ 1 then
      match timeFilter tlim itv last t with
      | .skip => scanLoop tlim itv rest .epoch last
      | .stop => some ([], last)
      | .accept l2 =>
        (scanLoop tlim itv rest .epoch l2).map
          (fun p => (⟨t, sv ++ [ln.take 3], raw ++ ln.drop 3⟩ :: p.1, p.2))
    else scanLoop tlim itv rest (.collect t (k - 1) (sv ++ [ln.take 3]) (raw ++ ln.drop 3)) last

/-- Python `str.split()`: split on maximal whitespace runs, dropping
empty pieces. -/
def splitWsAux : List Char → List Char → List (List Char)
  | [], acc => if acc = [] then [] else [acc.reverse]
  | c :: rest, acc =>
    if isWs c then
      if acc = [] then splitWsAux rest [] else acc.reverse :: splitWsAux rest []
    else splitWsAux rest (c :: acc)

/-- Python `str.split()` with no argument. -/
def splitWs (l : List Char) : List (List Char) :=
  splitWsAux l []

/-- Python substring containment `pat in s`. -/
def containsSub (pat s : List Char) : Bool :=
  s.tails.any (fun t => pat.isPrefixOf t)

/-- The `"SYS / # / OBS TYPES"` header label. -/
def sysTag : List Char := "SYS / # / OBS TYPES".toList

/-- The `"END OF HEADER"` marker. -/
def eohTag : List Char := "END OF HEADER".toList

/-- A 3-character observation-code name. -/
abbrev Code := List Char

/-- The per-system observation-code mapping, in dict insertion order. -/
abbrev Fields := List (Char × List Code)

/-- Python dict assignment `d[k] = v`: overwrite in place, else append. -/
def dictSet {κ β : Type} [DecidableEq κ] : List (κ × β) → κ → β → List (κ × β)
  | [], k, v => [(k, v)]
  | (k0, v0) :: rest, k, v =>
    if k0 = k then (k0, v) :: rest else (k0, v0) :: dictSet rest k v

/-- Python dict lookup `d[k]` / `k in d`. -/
def alookup {κ β : Type} [DecidableEq κ] : List (κ × β) → κ → Option β
  | [], _ => none
  | (k0, v0) :: rest, k => if k0 = k then some v0 else alookup rest k

/-- Python `d[k] += xs` for a dict of lists (the key is always present at
the call sites; a missing key — a `KeyError` in Python — leaves the dict
unchanged here and is unreachable). -/
def dictAppend {κ : Type} [DecidableEq κ] :
    List (κ × List Code) → κ → List Code → List (κ × List Code)
  | [], _, _ => []
  | (k0, v0) :: rest, k, xs =>
    if k0 = k then (k0, v0 ++ xs) :: rest else (k0, v0) :: dictAppend rest k xs

/-- `assert len(fields[k]) == N` (obs3.py line 305). -/
def lenOk (fields : Fields) (k : Char) (N : Int) : Bool :=
  (((alookup fields k).getD []).length : Int) = N

/-- State of the header loop: plain lines, or inside the continuation
lines of a `"SYS / # / OBS TYPES"` record for system `k` with `n` codes
still outstanding of the `declN` declared. -/
inductive HMode
  | normal
  | cont (k : Char) (n : Int) (declN : Int)
deriving DecidableEq

/-- Error message for `assert "SYS / # / OBS TYPES" in ln[60:]`
(obs3.py line 301). -/
def contMissingMsg : String := "assert failed: SYS / # / OBS TYPES continuation"

/-- Error message for `assert len(fields[k]) == N` (obs3.py line 305). -/
def lenMismatchMsg : String := "assert failed: obs code count mismatch"

/-- The header-consuming loop of `obsheader3` (obs3.py lines 285-313),
one line per step.  `"END OF HEADER"` (or end of file) ends the loop; a
`"SYS / # / OBS TYPES"` record initialises `fields[k]` from `c[6:60]`,
raises `Fmax`, and keeps consuming continuation lines (13 codes each)
until the declared count is accumulated, asserting that each continuation
line carries the same label and finally that the accumulated length
equals the declared count.  The free-text label map built from the other
header lines (lines 309-313) feeds only the optional best-effort
attributes and is not modelled.  Failed `assert`s and an unparsable
declared count (uncaught exceptions) are `.error`. -/
def headerLoop : List Line → HMode → Fields → Int → Except String (Fields × Int)
  | [], .normal, fields, fmax => .ok (fields, fmax)
  | [], .cont _ _ _, _, _ => .error contMissingMsg
  | ln :: rest, .normal, fields, fmax =>
    if containsSub eohTag ln then .ok (fields, fmax)
    else
      if containsSub sysTag (slice ln 60 80) then
        match (slice ln 0 60).head? with
        | none => .error "empty header line"
        | some k =>
          match pyInt (slice ln 3 6) with
          | none => .error "bad obs type count"
          | some declN =>
            let fields2 := dictSet fields k (splitWs (slice ln 6 60))
            let fmax2 := max declN fmax
            if declN - 13 > 0 then headerLoop rest (.cont k (declN - 13) declN) fields2 fmax2
            else if lenOk fields2 k declN then headerLoop rest .normal fields2 fmax2
            else .error lenMismatchMsg
      else headerLoop rest .normal fields fmax
  | ln :: rest, .cont k n declN, fields, fmax =>
    if containsSub sysTag (ln.drop 60) then
      let fields2 := dictAppend fields k (splitWs (slice ln 6 60))
      if n - 13 > 0 then headerLoop rest (.cont k (n - 13) declN) fields2 fmax
      else if lenOk fields2 k declN then headerLoop rest .normal fields2 fmax
      else .error lenMismatchMsg
    else .error contMissingMsg

/-- Error message of `raise KeyError(f"system type {use} not found in RINEX file")`
(obs3.py line 348). -/
def sysNotFoundMsg : String := "system type not found in RINEX file"

/-- System filter of `obsheader3` (obs3.py lines 345-350).  `use` is a
Python `set`; `us` is the order in which that set happens to be iterated
(an implementation-chosen permutation of the caller's distinct request —
`none` models `use=None` and `[]` the falsy empty set, both of which skip
the filter).  If no file system is in the set, a `KeyError` is raised;
otherwise the mapping is rebuilt as `{k: fields[k] for k in use if k in fields}`. -/
def applyUse (use : Option (List Char)) (fields : Fields) : Except String Fields :=
  match use with
  | none => .ok fields
  | some us =>
    if us = [] then .ok fields
    else if us.all (fun k => (alookup fields k).isNone) then .error sysNotFoundMsg
    else .ok (us.filterMap (fun k => (alookup fields k).map (fun v => (k, v))))

/-- Measurement-argument normalisation in `rinexobs3` (obs3.py lines
66-67): `if not meas or not meas[0].strip(): meas = None` — a missing,
empty, or blank-first-element list disables the measurement filter. -/
def normalizeMeas : Option (List Code) → Option (List Code)
  | none => none
  | some [] => none
  | some (m :: rest) => if stripWs m = [] then none else some (m :: rest)

/-- Per-system retention vector `ind` (obs3.py lines 358-362): entry `i`
is true iff `fields[sk][i]` starts with one of the requested prefixes. -/
def measInd (ms : List Code) (codes : List Code) : List Bool :=
  codes.map (fun c => ms.any (fun m => m.isPrefixOf c))

/-- The per-system column-selection mask (obs3.py lines 365-367):
`np.empty(Fmax * 3)` followed by `sysind[sk][j*3 : j*3+3] = ind[j]` for
each `j`.  The vector is *uninitialised*: slots beyond `3 * len(ind)`
keep whatever `np.empty` produced, modelled by the explicit `garbage`
function. -/
def maskOf (ind : List Bool) (fmax : Int) (garbage : Nat → Bool) : List Bool :=
  ind.flatMap (fun b => [b, b, b])
    ++ (List.range ((3 * fmax).toNat - 3 * ind.length)).map
        (fun i => garbage (3 * ind.length + i))

/-- Measurement filter of `obsheader3` (obs3.py lines 354-369): when a
measurement list survives normalisation, each system keeps only the codes
starting with a requested prefix and gets a column-selection mask;
otherwise every system's "mask" is the select-everything slice `np.s_[:]`
(modelled as `none`). -/
def applyMeas (meas : Option (List Code)) (fields : Fields) (fmax : Int)
    (garbage : Nat → Bool) : Fields × Option (List (Char × List Bool)) :=
  match meas with
  | none => (fields, none)
  | some ms =>
    (fields.map (fun kv => (kv.1, kv.2.filter (fun c => ms.any (fun m => m.isPrefixOf c)))),
     some (fields.map (fun kv => (kv.1, maskOf (measInd ms kv.2) fmax garbage))))

/-- Result of `obsheader3` restricted to the parts the claims touch. -/
structure Hdr3 where
  fields : Fields
  fieldsInd : Option (List (Char × List Bool))
  fmax : Int
deriving DecidableEq

/-- `obsheader3` (obs3.py lines 269-375) on the header lines: the
consuming loop, then the system filter, then the measurement filter.
Errors (Python exceptions) propagate to the caller — `rinexobs3` calls
`obsheader3` outside any `try`. -/
def obsheader3M (lines : List Line) (use : Option (List Char))
    (meas : Option (List Code)) (garbage : Nat → Bool) : Except String Hdr3 :=
  match headerLoop lines .normal [] 0 with
  | .error e => .error e
  | .ok (fields, fmax) =>
    match applyUse use fields with
    | .error e => .error e
    | .ok fields2 =>
      let p := applyMeas meas fields2 fmax garbage
      .ok ⟨p.1, p.2, fmax⟩

/-- `k.startswith(("L1", "L2"))` (obs3.py line 261). -/
def isL12 (k : Code) : Bool :=
  match k with
  | 'L' :: '1' :: _ => true
  | 'L' :: '2' :: _ => true
  | _ => false

/-- Suffix of the loss-of-lock indicator column name. -/
def lliSuf : List Char := "lli".toList

/-- Suffix of the signal-strength indicator column name. -/
def ssiSuf : List Char := "ssi".toList

/-- `_indicators` (obs3.py lines 257-266): add the LLI column only for
codes starting `"L1"`/`"L2"`, and the SSI column unconditionally. -/
def indicatorsM {α : Type} (d : List (Code × α)) (k : Code) (lli ssi : α) :
    List (Code × α) :=
  let d1 := if isL12 k then dictSet d (k ++ lliSuf) lli else d
  dictSet d1 (k ++ ssiSuf) ssi

/-- The per-system column-building loop of `_epoch` (obs3.py lines
237-241): for the `i`-th retained code `k`, `dsf[k]` is the value column
`garr[:, i*3]`, and with indicators requested `_indicators` adds the
LLI/SSI columns from `garr[:, i*3+1 : i*3+3]`.  `vals i` supplies the
`(value, LLI, SSI)` column triple of the `i`-th code. -/
def buildDsf {α : Type} (useind : Bool) :
    List Code → Nat → (Nat → α × α × α) → List (Code × α) → List (Code × α)
  | [], _, _, d => d
  | k :: ks, i, vals, d =>
    let d1 := dictSet d k (vals i).1
    let d2 := if useind then indicatorsM d1 k (vals i).2.1 (vals i).2.2 else d1
    buildDsf useind ks (i + 1) vals d2

/-- The column names of a per-epoch system table. -/
def dsfKeys {α : Type} (d : List (Code × α)) : List Code :=
  d.map (fun kv => kv.1)

/-- `s.replace(" ", "0")` on a satellite identifier (obs3.py line 126):
every blank becomes a zero. -/
def patchSv (s : List Char) : List Char :=
  s.map (fun c => if c = ' ' then '0' else c)

/-- The satellite identifiers that can reach the result dataset: those of
accepted epochs whose system letter is one of the selected systems
(`_epoch` keeps a satellite iff `s[0] in sk` for some selected system
`sk`, obs3.py line 225). -/
def resultSvs (epochs : List Epoch) (sysKeys : List Char) : List (List Char) :=
  (epochs.flatMap (fun e => e.sv)).filter
    (fun s =>
      match s with
      | c :: _ => sysKeys.contains c
      | [] => false)

/-- An uppercase ASCII letter. -/
def isUpper (c : Char) : Bool := 'A' ≤ c ∧ c ≤ 'Z'

/-- An ASCII digit. -/
def isDigit (c : Char) : Bool := '0' ≤ c ∧ c ≤ '9'

/-- Shape of a raw (pre-patch) well-formed satellite identifier: a system
letter then two characters that are each a digit or a blank digit
position. -/
def validSvRaw (s : List Char) : Bool :=
  match s with
  | [a, b, c] => isUpper a ∧ (isDigit b ∨ b = ' ') ∧ (isDigit c ∨ c = ' ')
  | _ => false

/-- The specified final shape: one uppercase letter then exactly two
digits. -/
def svPatternOk (s : List Char) : Bool :=
  match s with
  | [a, b, c] => isUpper a ∧ isDigit b ∧ isDigit c
  | _ => false

/-! ## Helper lemmas -/

theorem alookup_map_val {β : Type} (f : List Code → β) :
    ∀ (l : Fields) (k : Char),
      alookup (l.map (fun kv => (kv.1, f kv.2))) k = (alookup l k).map f := by
  intro l k
  induction l with
  | nil => rfl
  | cons kv rest ih =>
    by_cases h : kv.1 = k
    · simp [alookup, h]
    · simp [alookup, h, ih]

theorem map_fst_filterMap_lookup (o : Char → Option (List Code)) :
    ∀ us : List Char,
      (us.filterMap (fun k => (o k).map (fun v => (k, v)))).map (fun kv => kv.1) =
        us.filter (fun k => (o k).isSome) := by
  intro us
  induction us with
  | nil => rfl
  | cons k rest ih =>
    cases h : o k with
    | none => simp [List.filterMap_cons, List.filter_cons, h, ih]
    | some v => simp [List.filterMap_cons, List.filter_cons, h, ih]

theorem length_tripled (ind : List Bool) :
    (ind.flatMap (fun b => [b, b, b])).length = 3 * ind.length := by
  induction ind with
  | nil => rfl
  | cons b rest ih => simp [List.flatMap_cons, ih]; ring

theorem count_tripled (ind : List Bool) :
    (ind.flatMap (fun b => [b, b, b])).count true = 3 * ind.count true := by
  induction ind with
  | nil => rfl
  | cons b rest ih =>
    cases b
    · simp [List.flatMap_cons, List.count_append, ih, List.count_cons]
      try ring
    · simp [List.flatMap_cons, List.count_append, ih, List.count_cons]
      try ring

theorem count_true_map (p : Code → Bool) (codes : List Code) :
    (codes.map p).count true = (codes.filter p).length := by
  induction codes with
  | nil => rfl
  | cons c rest ih =>
    cases h : p c
    · simp [List.count_cons, h, List.filter_cons, ih]
    · simp [List.count_cons, h, List.filter_cons, ih]

theorem mem_dsfKeys_dictSet {α : Type} (d : List (Code × α)) (k x : Code) (v : α) :
    x ∈ dsfKeys (dictSet d k v) ↔ x = k ∨ x ∈ dsfKeys d := by
  induction d with
  | nil => simp [dictSet, dsfKeys]
  | cons kv rest ih =>
    unfold dictSet
    by_cases h : kv.1 = k
    · rw [if_pos h]
      subst h
      simp only [dsfKeys, List.map_cons, List.mem_cons]
      tauto
    · rw [if_neg h]
      simp only [dsfKeys, List.map_cons, List.mem_cons] at ih ⊢
      rw [ih]
      tauto

theorem mem_dsfKeys_indicatorsM {α : Type} (d : List (Code × α)) (k x : Code)
    (lli ssi : α) :
    x ∈ dsfKeys (indicatorsM d k lli ssi) ↔
      x = k ++ ssiSuf ∨ (isL12 k = true ∧ x = k ++ lliSuf) ∨ x ∈ dsfKeys d := by
  unfold indicatorsM
  cases h : isL12 k
  · rw [if_neg (by simp [h])]
    rw [mem_dsfKeys_dictSet]
    simp [h]
  · rw [if_pos (by simp [h])]
    rw [mem_dsfKeys_dictSet, mem_dsfKeys_dictSet]
    simp only [h, true_and]
    try tauto

theorem mem_dsfKeys_buildDsf {α : Type} (vals : Nat → α × α × α) :
    ∀ (codes : List Code) (i0 : Nat) (d : List (Code × α)) (x : Code),
      x ∈ dsfKeys (buildDsf true codes i0 vals d) ↔
        (x ∈ codes.flatMap
          (fun k => [k] ++ (if isL12 k then [k ++ lliSuf] else []) ++ [k ++ ssiSuf]))
        ∨ x ∈ dsfKeys d := by
  intro codes
  induction codes with
  | nil => simp [buildDsf]
  | cons k ks ih =>
    intro i0 d x
    simp only [buildDsf, if_pos]
    rw [ih]
    rw [mem_dsfKeys_indicatorsM, mem_dsfKeys_dictSet]
    rw [List.flatMap_cons, List.mem_append]
    cases h : isL12 k
    · simp only [h, if_neg (Bool.false_ne_true), false_and, false_or,
        List.append_nil, List.nil_append, List.mem_append, List.mem_singleton]
      tauto
    · simp only [h, if_pos, true_and, List.mem_append, List.mem_singleton]
      tauto

/-! ## Time-filter inversion lemmas -/

theorem timeFilter_accept_le_hi {lo hi t : Int} {itv : Option Int}
    {last l2 : Option Int}
    (h : timeFilter (some (lo, hi)) itv last t = .accept l2) : t ≤ hi := by
  unfold timeFilter at h
  by_cases h1 : t < lo
  · simp [h1] at h
  · by_cases h2 : hi < t
    · simp [h1, h2] at h
    · exact le_of_not_lt h2

theorem timeFilter_stop_of_gt {lo hi t : Int} {itv : Option Int} {last : Option Int}
    (hlo : ¬ t < lo) (hhi : hi < t) :
    timeFilter (some (lo, hi)) itv last t = .stop := by
  unfold timeFilter
  simp [hlo, hhi]

theorem timeFilter_accept_itv {tlim : Option (Int × Int)} {ival t : Int}
    {last l2 : Option Int}
    (h : timeFilter tlim (some ival) last t = .accept l2) :
    (last = none ∧ l2 = some t)
      ∨ ∃ le, last = some le ∧ le + ival ≤ t ∧ l2 = some (le + ival) := by
  have h2 : intervalFilter (some ival) last t = .accept l2 := by
    unfold timeFilter at h
    match tlim with
    | none => exact h
    | some (lo, hi) =>
      by_cases ha : t < lo
      · simp [ha] at h
      · by_cases hb : hi < t
        · simp [ha, hb] at h
        · simpa [ha, hb] using h
  unfold intervalFilter at h2
  match last with
  | none =>
    left
    simp at h2
    exact ⟨rfl, h2.symm⟩
  | some le =>
    right
    by_cases hc : t - le < ival
    · simp [hc] at h2
    · refine ⟨le, rfl, by omega, ?_⟩
      simp [hc] at h2
      exact h2.symm

/-! ## Scan-loop invariants -/

theorem scan_stop_collect (tlim : Option (Int × Int)) (itv : Option Int)
    {t : Int} {last : Option Int}
    (h : timeFilter tlim itv last t = .stop) :
    ∀ (rest : List Line) (k : Nat) (sv : List (List Char)) (raw : List Char),
      scanLoop tlim itv rest (.collect t k sv raw) last = some ([], last) := by
  intro rest
  induction rest with
  | nil =>
    intro k sv raw
    simp only [scanLoop, h]
  | cons ln rs ih =>
    intro k sv raw
    by_cases hk : k ≤ 1
    · simp only [scanLoop, if_pos hk, h]
    · simp only [scanLoop, if_neg hk]
      exact ih _ _ _

theorem scan_bound (lo hi : Int) (itv : Option Int) :
    ∀ (lines : List Line) (mode : Mode) (last : Option Int)
      (acc : List Epoch) (l2 : Option Int),
      scanLoop (some (lo, hi)) itv lines mode last = some (acc, l2) →
      ∀ e ∈ acc, e.time ≤ hi := by
  intro lines
  induction lines with
  | nil =>
    intro mode last acc l2 h e he
    match mode with
    | .epoch =>
      simp only [scanLoop] at h
      cases h
      simp at he
    | .collect t k sv raw =>
      simp only [scanLoop] at h
      cases hf : timeFilter (some (lo, hi)) itv last t with
      | skip => rw [hf] at h; cases h; simp at he
      | stop => rw [hf] at h; cases h; simp at he
      | accept l3 =>
        rw [hf] at h
        cases h
        simp at he
        subst he
        exact timeFilter_accept_le_hi hf
  | cons ln rest ih =>
    intro mode last acc l2 h e he
    match mode with
    | .epoch =>
      simp only [scanLoop] at h
      by_cases hg : lnStartsGt ln
      · rw [if_pos hg] at h
        cases ht : timeobs ln with
        | none =>
          simp only [ht] at h
          exact ih _ _ _ _ h e he
        | some t =>
          cases hn : pyInt (slice ln 33 35) with
          | none =>
            simp only [ht, hn] at h
            exact Option.noConfusion h
          | some ns =>
            simp only [ht, hn] at h
            by_cases hns : ns ≤ 0
            · rw [if_pos hns] at h
              cases hf : timeFilter (some (lo, hi)) itv last t with
              | skip => rw [hf] at h; exact ih _ _ _ _ h e he
              | stop => rw [hf] at h; cases h; simp at he
              | accept l3 =>
                rw [hf] at h
                rw [Option.map_eq_some'] at h
                obtain ⟨p, hp, hpe⟩ := h
                cases hpe
                rcases List.mem_cons.mp he with he1 | he2
                · subst he1
                  exact timeFilter_accept_le_hi hf
                · exact ih _ _ _ _ hp e he2
            · rw [if_neg hns] at h
              exact ih _ _ _ _ h e he
      · rw [if_neg hg] at h
        cases h
        simp at he
    | .collect t k sv raw =>
      simp only [scanLoop] at h
      by_cases hk : k ≤ 1
      · rw [if_pos hk] at h
        cases hf : timeFilter (some (lo, hi)) itv last t with
        | skip => rw [hf] at h; exact ih _ _ _ _ h e he
        | stop => rw [hf] at h; cases h; simp at he
        | accept l3 =>
          rw [hf] at h
          rw [Option.map_eq_some'] at h
          obtain ⟨p, hp, hpe⟩ := h
          cases hpe
          rcases List.mem_cons.mp he with he1 | he2
          · subst he1
            exact timeFilter_accept_le_hi hf
          · exact ih _ _ _ _ hp e he2
      · rw [if_neg hk] at h
        exact ih _ _ _ _ h e he

/-- The reference-epoch chaining produced by the decimation logic: from a
reference state `last`, each accepted epoch is at least one interval past
the current reference, and each acceptance advances the reference by
exactly one interval; the final state is the final reference. -/
def refChain (ival : Int) : Option Int → List Epoch → Option Int → Prop
  | last, [], l2 => l2 = last
  | last, e :: es, l2 =>
    match last with
    | none => refChain ival (some e.time) es l2
    | some le => le + ival ≤ e.time ∧ refChain ival (some (le + ival)) es l2

theorem scan_refChain (tlim : Option (Int × Int)) (ival : Int) :
    ∀ (lines : List Line) (mode : Mode) (last : Option Int)
      (acc : List Epoch) (l2 : Option Int),
      scanLoop tlim (some ival) lines mode last = some (acc, l2) →
      refChain ival last acc l2 := by
  intro lines
  induction lines with
  | nil =>
    intro mode last acc l2 h
    match mode with
    | .epoch =>
      simp only [scanLoop] at h
      cases h
      rfl
    | .collect t k sv raw =>
      simp only [scanLoop] at h
      cases hf : timeFilter tlim (some ival) last t with
      | skip => rw [hf] at h; cases h; rfl
      | stop => rw [hf] at h; cases h; rfl
      | accept l3 =>
        rw [hf] at h
        cases h
        rcases timeFilter_accept_itv hf with ⟨hl, hl2⟩ | ⟨le, hl, hle, hl2⟩
        · subst hl
          subst hl2
          exact rfl
        · subst hl
          subst hl2
          exact ⟨hle, rfl⟩
  | cons ln rest ih =>
    intro mode last acc l2 h
    match mode with
    | .epoch =>
      simp only [scanLoop] at h
      by_cases hg : lnStartsGt ln
      · rw [if_pos hg] at h
        cases ht : timeobs ln with
        | none =>
          simp only [ht] at h
          exact ih _ _ _ _ h
        | some t =>
          cases hn : pyInt (slice ln 33 35) with
          | none =>
            simp only [ht, hn] at h
            exact Option.noConfusion h
          | some ns =>
            simp only [ht, hn] at h
            by_cases hns : ns ≤ 0
            · rw [if_pos hns] at h
              cases hf : timeFilter tlim (some ival) last t with
              | skip => rw [hf] at h; exact ih _ _ _ _ h
              | stop => rw [hf] at h; cases h; rfl
              | accept l3 =>
                rw [hf] at h
                rw [Option.map_eq_some'] at h
                obtain ⟨p, hp, hpe⟩ := h
                cases hpe
                have hrec := ih _ _ _ _ hp
                rcases timeFilter_accept_itv hf with ⟨hl, hl2⟩ | ⟨le, hl, hle, hl2⟩
                · subst hl
                  cases hl2
                  exact hrec
                · subst hl
                  cases hl2
                  exact ⟨hle, hrec⟩
            · rw [if_neg hns] at h
              exact ih _ _ _ _ h
      · rw [if_neg hg] at h
        cases h
        rfl
    | .collect t k sv raw =>
      simp only [scanLoop] at h
      by_cases hk : k ≤ 1
      · rw [if_pos hk] at h
        cases hf : timeFilter tlim (some ival) last t with
        | skip => rw [hf] at h; exact ih _ _ _ _ h
        | stop => rw [hf] at h; cases h; rfl
        | accept l3 =>
          rw [hf] at h
          rw [Option.map_eq_some'] at h
          obtain ⟨p, hp, hpe⟩ := h
          cases hpe
          have hrec := ih _ _ _ _ hp
          rcases timeFilter_accept_itv hf with ⟨hl, hl2⟩ | ⟨le, hl, hle, hl2⟩
          · subst hl
            cases hl2
            exact hrec
          · subst hl
            cases hl2
            exact ⟨hle, hrec⟩
      · rw [if_neg hk] at h
        exact ih _ _ _ _ h

theorem refChain_bound (ival : Int) :
    ∀ (es : List Epoch) (r : Int) (l2 : Option Int),
      refChain ival (some r) es l2 →
      (∀ j (hj : j < es.length),
          r + ((j : Int) + 1) * ival ≤ (es.get ⟨j, hj⟩).time)
      ∧ l2 = some (r + (es.length : Int) * ival) := by
  intro es
  induction es with
  | nil =>
    intro r l2 h
    refine ⟨fun j hj => absurd hj (by simp), ?_⟩
    simpa using h
  | cons e es' ih =>
    intro r l2 h
    obtain ⟨h1, h2⟩ := h
    obtain ⟨ihb, ihl⟩ := ih (r + ival) l2 h2
    constructor
    · intro j hj
      match j with
      | 0 => simpa using h1
      | j' + 1 =>
        have hj' : j' < es'.length := by simpa using hj
        have := ihb j' hj'
        have heq : r + ival + ((j' : Int) + 1) * ival = r + ((j' : Int) + 1 + 1) * ival := by
          ring
        rw [heq] at this
        simpa using this
    · rw [ihl]
      congr 1
      simp only [List.length_cons]
      push_cast
      ring

/-! ## Satellite-identifier patching -/

theorem patchSv_valid (s : List Char) (h : validSvRaw s = true) :
    svPatternOk (patchSv s) = true ∧ ' ' ∉ patchSv s := by
  match s with
  | [a, b, c] =>
    simp only [validSvRaw, Bool.and_eq_true, Bool.or_eq_true, decide_eq_true_eq] at h
    obtain ⟨ha, hb, hc⟩ := h
    have ha' : a ≠ ' ' := by
      intro hx
      subst hx
      simp [isUpper] at ha
    have hb' : isDigit (if b = ' ' then '0' else b) = true := by
      by_cases hx : b = ' '
      · simp [hx, isDigit]
      · rcases hb with hb1 | hb2
        · simpa [hx] using hb1
        · exact absurd hb2 (by simpa using hx)
    have hc' : isDigit (if c = ' ' then '0' else c) = true := by
      by_cases hx : c = ' '
      · simp [hx, isDigit]
      · rcases hc with hc1 | hc2
        · simpa [hx] using hc1
        · exact absurd hc2 (by simpa using hx)
    constructor
    · simp only [patchSv, List.map_cons, List.map_nil, svPatternOk, decide_eq_true_eq]
      rw [if_neg ha']
      exact ⟨ha, hb', hc'⟩
    · simp only [patchSv, List.map_cons, List.map_nil, List.mem_cons]
      push_neg
      rw [if_neg ha']
      refine ⟨fun hx => ha' hx.symm, ?_, ?_, by simp⟩
      · intro hx
        by_cases hy : b = ' '
        · simp [hy] at hx
        · rw [if_neg hy] at hx
          exact hy hx.symm
      · intro hx
        by_cases hy : c = ' '
        · simp [hy] at hx
        · rw [if_neg hy] at hx
          exact hy hx.symm
  | [] => simp [validSvRaw] at h
  | [_] => simp [validSvRaw] at h
  | [_, _] => simp [validSvRaw] at h
  | _ :: _ :: _ :: _ :: _ => simp [validSvRaw] at h

/-! ## Claim theorems -/

/-- Claim C1, amended.  The original claim asserts that each accepted
epoch (after the first) has elapsed time at least the interval since the
*previous accepted epoch*; the code (obs3.py lines 110-117) instead
compares against the *reference* `last_epoch`, which advances by exactly
one interval per acceptance — after a gap, consecutive accepted epochs
can be closer together than the interval (see the counterexample).  What
does hold: the `j`-th accepted epoch after the first is at least `j`
intervals past the first accepted epoch (the reference stays at exact
multiples of the interval from it, with no drift), and the final
reference equals the first accepted time plus exactly one interval per
later acceptance. -/
theorem c1_decimation_reference_no_drift
    (tlim : Option (Int × Int)) (ival : Int) (lines : List Line)
    (a0 : Epoch) (rest : List Epoch) (l2 : Option Int)
    (h : scanLoop tlim (some ival) lines .epoch none = some (a0 :: rest, l2)) :
    (∀ j (hj : j < rest.length),
        a0.time + ((j : Int) + 1) * ival ≤ (rest.get ⟨j, hj⟩).time)
    ∧ l2 = some (a0.time + (rest.length : Int) * ival) := by
  have hc := scan_refChain tlim ival lines .epoch none (a0 :: rest) l2 h
  exact refChain_bound ival rest a0.time l2 hc

/-- Epochs at 0 s, 7 s and 12 s scanned with a 5 s decimation interval:
all three are accepted. -/
def c1wLines : List Line :=
  ["> 2020 01 01 00 00  0.0000000  0  0".toList,
   "> 2020 01 01 00 00  7.0000000  0  0".toList,
   "> 2020 01 01 00 00 12.0000000  0  0".toList]

/-- Witness for C1 (amended): on the concrete 0 s / 7 s / 12 s file with
interval 5 s, each later accepted epoch is at least `j+1` intervals past
the first, and the final reference is the first time plus two intervals. -/
theorem c1_decimation_reference_no_drift_witness :
    (∀ j (hj : j < ([(⟨1577836807000000, [], []⟩ : Epoch),
          ⟨1577836812000000, [], []⟩] : List Epoch).length),
        (1577836800000000 : Int) + ((j : Int) + 1) * 5000000 ≤
          (([(⟨1577836807000000, [], []⟩ : Epoch),
            ⟨1577836812000000, [], []⟩] : List Epoch).get ⟨j, hj⟩).time)
    ∧ (some 1577836810000000 : Option Int) =
        some (1577836800000000
          + (([(⟨1577836807000000, [], []⟩ : Epoch),
              ⟨1577836812000000, [], []⟩] : List Epoch).length : Int) * 5000000) :=
  c1_decimation_reference_no_drift none 5000000 c1wLines
    ⟨1577836800000000, [], []⟩
    [⟨1577836807000000, [], []⟩, ⟨1577836812000000, [], []⟩]
    (some 1577836810000000) rfl

/-- Epochs at 0 s, 100 s and 101 s: after the 100 s gap the reference is
only one interval (5 s) past the first epoch, so the 101 s epoch is also
accepted. -/
def c1cxLines : List Line :=
  ["> 2020 01 01 00 00  0.0000000  0  0".toList,
   "> 2020 01 01 00 01 40.0000000  0  0".toList,
   "> 2020 01 01 00 01 41.0000000  0  0".toList]

/-- Counterexample to C1 as stated: with decimation interval 5 s and
epochs at 0 s, 100 s and 101 s, all three epochs are accepted, yet the
last two accepted epochs are only 1 s apart — the elapsed time since the
previous *accepted* epoch is less than the interval. -/
theorem c1_decimation_counterexample :
    (scanLoop none (some 5000000) c1cxLines .epoch none).map
        (fun p => p.1.map Epoch.time) =
      some [1577836800000000, 1577836900000000, 1577836901000000]
    ∧ (1577836901000000 : Int) - 1577836900000000 < 5000000 :=
  ⟨rfl, by decide⟩

/-- Claim C3 (confirmed): a line on which timestamp extraction is
attempted (it begins with `">"`) but fails is skipped — the scan of the
remaining lines is exactly the scan that would have run without the
garbage line, in any scanner state, so stray `">"`-marked garbage between
the header and the data or between epochs never terminates the scan. -/
theorem c3_garbage_line_skipped (tlim : Option (Int × Int)) (itv : Option Int)
    (ln : Line) (rest : List Line) (last : Option Int)
    (hg : lnStartsGt ln = true) (ht : timeobs ln = none) :
    scanLoop tlim itv (ln :: rest) .epoch last = scanLoop tlim itv rest .epoch last := by
  simp only [scanLoop, if_pos hg, ht]

/-- A two-epoch file for the C3 witness. -/
def c3wLines : List Line :=
  ["> 2020 01 01 00 00  0.0000000  0  0".toList,
   "> 2020 01 01 00 00 30.0000000  0  0".toList]

/-- Witness for C3: a concrete garbage line starting with `">"` whose
timestamp extraction fails is skipped and the scan continues at the next
line. -/
theorem c3_garbage_line_skipped_witness :
    lnStartsGt "> stray garbage between epochs".toList = true
    ∧ timeobs "> stray garbage between epochs".toList = none
    ∧ scanLoop none none ("> stray garbage between epochs".toList :: c3wLines)
        .epoch none = scanLoop none none c3wLines .epoch none :=
  ⟨rfl, rfl,
    c3_garbage_line_skipped none none "> stray garbage between epochs".toList
      c3wLines none rfl rfl⟩

/-- Claim C4 (confirmed): with an upper time bound set, (i) every epoch
the scan accepts has timestamp at most the bound, and (ii) at the first
epoch whose timestamp exceeds the bound the scan returns immediately with
no accepted epochs, whatever the remaining lines are — subsequent epochs
are never read. -/
theorem c4_upper_bound_terminates (lo hi t : Int) (itv : Option Int) :
    (∀ (lines : List Line) (acc : List Epoch) (l2 : Option Int),
        scanLoop (some (lo, hi)) itv lines .epoch none = some (acc, l2) →
        ∀ e ∈ acc, e.time ≤ hi)
    ∧ (∀ (ln : Line) (rest : List Line) (last : Option Int) (ns : Int),
        lnStartsGt ln = true → timeobs ln = some t →
        pyInt (slice ln 33 35) = some ns → lo ≤ hi → hi < t →
        scanLoop (some (lo, hi)) itv (ln :: rest) .epoch last = some ([], last)) := by
  constructor
  · intro lines acc l2 h e he
    exact scan_bound lo hi itv lines .epoch none acc l2 h e he
  · intro ln rest last ns hg ht hn hlh hht
    have hstop : timeFilter (some (lo, hi)) itv last t = .stop :=
      timeFilter_stop_of_gt (by omega) hht
    simp only [scanLoop, if_pos hg, ht, hn]
    by_cases hns : ns ≤ 0
    · simp only [if_pos hns, hstop]
    · simp only [if_neg hns]
      exact scan_stop_collect _ _ hstop rest _ [] []

/-- A file whose second epoch (100 s) exceeds the 50 s upper bound while
the third (10 s) would be inside the window again. -/
def c4wLines : List Line :=
  ["> 2020 01 01 00 00  0.0000000  0  0".toList,
   "> 2020 01 01 00 01 40.0000000  0  0".toList,
   "> 2020 01 01 00 00 10.0000000  0  0".toList]

/-- Witness for C4: on the concrete file the only accepted epoch is
within the bound, and a concrete over-bound epoch line stops the scan
with nothing accepted regardless of what follows. -/
theorem c4_upper_bound_terminates_witness :
    (∀ e ∈ ([(⟨1577836800000000, [], []⟩ : Epoch)] : List Epoch),
        e.time ≤ (1577836850000000 : Int))
    ∧ scanLoop (some (0, 1577836850000000)) none
        ("> 2020 01 01 00 01 40.0000000  0  0".toList :: ["never read".toList])
        .epoch none = some ([], none) :=
  ⟨(c4_upper_bound_terminates 0 1577836850000000 1577836900000000 none).1
      c4wLines [⟨1577836800000000, [], []⟩] none rfl,
   (c4_upper_bound_terminates 0 1577836850000000 1577836900000000 none).2
      "> 2020 01 01 00 01 40.0000000  0  0".toList ["never read".toList] none 0
      rfl rfl rfl (by decide) (by decide)⟩

/-- Claim C5 (confirmed): inside a `"SYS / # / OBS TYPES"` record, (i) a
continuation line lacking the label — or the record ending at end of
file — is a fatal structural error; (ii) when the declared count is
exhausted, an accumulated length differing from the declared `N` is a
fatal structural error, and only an accumulated length of exactly `N`
lets parsing continue; (iii) `lenOk` is precisely "the accumulated code
list for the system has length `N`"; and (iv) a record declaring more
than 13 codes switches the parser into continuation mode with the first
13 codes stored and `N - 13` codes outstanding. -/
theorem c5_obs_types_continuation (ln : Line) (rest : List Line) (k : Char)
    (n declN : Int) (fields : Fields) (fmax : Int) :
    (containsSub sysTag (ln.drop 60) = false →
        headerLoop (ln :: rest) (.cont k n declN) fields fmax = .error contMissingMsg)
    ∧ headerLoop [] (.cont k n declN) fields fmax = .error contMissingMsg
    ∧ (containsSub sysTag (ln.drop 60) = true → ¬ n - 13 > 0 →
        (lenOk (dictAppend fields k (splitWs (slice ln 6 60))) k declN = false →
          headerLoop (ln :: rest) (.cont k n declN) fields fmax = .error lenMismatchMsg)
        ∧ (lenOk (dictAppend fields k (splitWs (slice ln 6 60))) k declN = true →
          headerLoop (ln :: rest) (.cont k n declN) fields fmax =
            headerLoop rest .normal (dictAppend fields k (splitWs (slice ln 6 60))) fmax))
    ∧ (∀ codes, lenOk fields k declN = true → alookup fields k = some codes →
        (codes.length : Int) = declN)
    ∧ (containsSub eohTag ln = false → containsSub sysTag (slice ln 60 80) = true →
        (slice ln 0 60).head? = some k → pyInt (slice ln 3 6) = some declN →
        declN - 13 > 0 →
        headerLoop (ln :: rest) .normal fields fmax =
          headerLoop rest (.cont k (declN - 13) declN)
            (dictSet fields k (splitWs (slice ln 6 60))) (max declN fmax)) := by
  refine ⟨?_, ?_, ?_, ?_, ?_⟩
  · intro hc
    simp only [headerLoop, hc, Bool.false_eq_true, if_false]
  · simp only [headerLoop]
  · intro hc hn
    constructor
    · intro hlen
      simp only [headerLoop, hc, if_true, if_neg hn, hlen, Bool.false_eq_true, if_false]
    · intro hlen
      simp only [headerLoop, hc, if_true, if_neg hn, hlen, if_true]
  · intro codes hlen halook
    simp only [lenOk, halook, Option.getD_some, decide_eq_true_eq] at hlen
    exact hlen
  · intro heoh hsys hhead hN hbig
    simp only [headerLoop, heoh, Bool.false_eq_true, if_false, hsys, if_true, hhead, hN,
      if_pos hbig]

/-- First line of a G record declaring 15 observation codes (13 fit on
the line). -/
def c5wG15a : Line :=
  "G   15 C1C L1C D1C S1C C2S L2S D2S S2S C2W L2W D2W S2W C5Q  SYS / # / OBS TYPES".toList

/-- Continuation line carrying the remaining 2 codes. -/
def c5wG15b : Line :=
  "       L5Q D5Q                                              SYS / # / OBS TYPES".toList

/-- End-of-header marker line. -/
def c5wEoh : Line :=
  "                                                            END OF HEADER".toList

/-- A line without the `"SYS / # / OBS TYPES"` label. -/
def c5wBad : Line := "COMMENT LINE WITHOUT THE LABEL".toList

/-- The 13 codes of the first record line. -/
def c5codes13 : List Code := splitWs (slice c5wG15a 6 60)

/-- Witness for C5: the concrete 13+2 split record parses to exactly 15
codes for G; a continuation line without the label, or end of file in
continuation mode, is the fatal continuation error. -/
theorem c5_obs_types_continuation_witness :
    (headerLoop [c5wG15a, c5wG15b, c5wEoh] .normal [] 0).map
        (fun p => ((p.1.map (fun kv => (kv.1, kv.2.length))), p.2)) =
      .ok ([('G', 15)], 15)
    ∧ headerLoop [c5wBad] (.cont 'G' 2 15) [('G', c5codes13)] 15 = .error contMissingMsg
    ∧ headerLoop [] (.cont 'G' 2 15) [('G', c5codes13)] 15 = .error contMissingMsg :=
  ⟨rfl,
   (c5_obs_types_continuation c5wBad [] 'G' 2 15 [('G', c5codes13)] 15).1 rfl,
   (c5_obs_types_continuation c5wBad [] 'G' 2 15 [('G', c5codes13)] 15).2.1⟩

/-- Claim C6 (confirmed): for a valid file — every satellite identifier
collected by the scan is a system letter followed by two digit-or-blank
characters — the end-of-scan patch (`s.replace(" ", "0")`, obs3.py line
126) leaves every identifier that can appear in the result dataset
matching one uppercase letter followed by exactly two digits, with no
blank remaining. -/
theorem c6_sv_identifiers_patched (lines : List Line) (tlim : Option (Int × Int))
    (itv : Option Int) (last l2 : Option Int) (epochs : List Epoch)
    (sysKeys : List Char)
    (_hscan : scanLoop tlim itv lines .epoch last = some (epochs, l2))
    (hvalid : ∀ s ∈ resultSvs epochs sysKeys, validSvRaw s = true) :
    ∀ p ∈ (resultSvs epochs sysKeys).map patchSv,
      svPatternOk p = true ∧ ' ' ∉ p := by
  intro p hp
  rw [List.mem_map] at hp
  obtain ⟨s, hs, rfl⟩ := hp
  exact patchSv_valid s (hvalid s hs)

/-- A one-epoch file whose single satellite line has the blank-padded
identifier `"G 7"`. -/
def c6wLines : List Line :=
  ["> 2020 01 01 00 00  0.0000000  0  1".toList,
   "G 7  21110158.564 7".toList]

/-- Witness for C6: on the concrete file the identifier `"G 7"` is
patched to `"G07"`, which matches letter-digit-digit and has no blank. -/
theorem c6_sv_identifiers_patched_witness :
    patchSv ['G', ' ', '7'] = ['G', '0', '7']
    ∧ (svPatternOk (patchSv ['G', ' ', '7']) = true ∧ ' ' ∉ patchSv ['G', ' ', '7']) :=
  ⟨rfl,
   c6_sv_identifiers_patched c6wLines none none none none
     [⟨1577836800000000, [['G', ' ', '7']], "  21110158.564 7".toList⟩] ['G']
     rfl (by decide) (patchSv ['G', ' ', '7']) (by decide)⟩

/-- Claim C7 (confirmed): with a non-empty requested system set, if none
of the requested systems is declared in the file's header, `obsheader3`
fails with the "system not found" error, which propagates to the caller
(`rinexobs3` calls it outside any `try`); if some requested system is
present, parsing succeeds and the code-list mapping is restricted to the
requested systems present in the file. -/
theorem c7_system_filter (lines : List Line) (use : List Char) (fields : Fields)
    (fmax : Int) (g : Nat → Bool)
    (hok : headerLoop lines .normal [] 0 = .ok (fields, fmax))
    (hne : use ≠ []) :
    ((∀ k ∈ use, alookup fields k = none) →
        obsheader3M lines (some use) none g = .error sysNotFoundMsg)
    ∧ (∀ k0 ∈ use, ∀ v0, alookup fields k0 = some v0 →
        obsheader3M lines (some use) none g =
          .ok ⟨use.filterMap (fun k => (alookup fields k).map (fun v => (k, v))),
               none, fmax⟩) := by
  constructor
  · intro hall
    have hAll : use.all (fun k => (alookup fields k).isNone) = true := by
      rw [List.all_eq_true]
      intro k hk
      rw [hall k hk]
      rfl
    simp only [obsheader3M, hok, applyUse, if_neg hne, hAll, if_true]
  · intro k0 hk0 v0 hv0
    have hAll : ¬ use.all (fun k => (alookup fields k).isNone) = true := by
      rw [List.all_eq_true]
      intro hx
      have := hx k0 hk0
      rw [hv0] at this
      exact Option.noConfusion (Option.isNone_iff_eq_none.mp this)
    simp only [obsheader3M, hok, applyUse, if_neg hne, hAll, Bool.false_eq_true, if_false,
      applyMeas]

/-- Header of a file declaring systems G (2 codes) and R (1 code). -/
def c7wLines : List Line :=
  ["G    2 C1C L1C                                              SYS / # / OBS TYPES".toList,
   "R    1 C1C                                                  SYS / # / OBS TYPES".toList,
   "                                                            END OF HEADER".toList]

/-- The parsed per-system code lists of `c7wLines`. -/
def c7fields : Fields :=
  [('G', [['C', '1', 'C'], ['L', '1', 'C']]), ('R', [['C', '1', 'C']])]

/-- Witness for C7: requesting `{X}` against the G/R file raises the
"system not found" error; requesting `{R}` succeeds with the mapping
restricted to R. -/
theorem c7_system_filter_witness :
    obsheader3M c7wLines (some ['X']) none (fun _ => false) = .error sysNotFoundMsg
    ∧ obsheader3M c7wLines (some ['R']) none (fun _ => false) =
        .ok ⟨[('R', [['C', '1', 'C']])], none, 2⟩ :=
  ⟨(c7_system_filter c7wLines ['X'] c7fields 2 (fun _ => false) rfl
      (by decide)).1 (by decide),
   (c7_system_filter c7wLines ['R'] c7fields 2 (fun _ => false) rfl
      (by decide)).2 'R' (by decide) [['C', '1', 'C']] rfl⟩

/-- Claim C8, amended.  The original claim asserts that the restricted
mapping enumerates the retained systems in the *caller's requested
order*.  But `use` is a Python `set`, and the dict comprehension
`{k: fields[k] for k in use if k in fields}` (obs3.py line 350) iterates
the set in an implementation-chosen (hash-dependent) order, not the
caller's: the embedding makes that iteration order an explicit argument
`us`.  What does hold: the enumeration order is exactly the set's
iteration order filtered to the systems present — independent of the
order the systems appear in the file header. -/
theorem c8_requested_set_iteration_order (us : List Char) (fields : Fields)
    (hne : us ≠ []) (hint : ∃ k ∈ us, (alookup fields k).isSome) :
    applyUse (some us) fields =
      .ok (us.filterMap (fun k => (alookup fields k).map (fun v => (k, v))))
    ∧ (us.filterMap (fun k => (alookup fields k).map (fun v => (k, v)))).map
        (fun kv => kv.1) = us.filter (fun k => (alookup fields k).isSome) := by
  constructor
  · have hAll : ¬ us.all (fun k => (alookup fields k).isNone) = true := by
      rw [List.all_eq_true]
      intro hx
      obtain ⟨k, hk, hks⟩ := hint
      have := hx k hk
      rw [Option.isNone_iff_eq_none.mp this] at hks
      exact Bool.noConfusion hks
    simp only [applyUse, if_neg hne, hAll, Bool.false_eq_true, if_false]
  · exact map_fst_filterMap_lookup (fun k => alookup fields k) us

/-- Witness for C8 (amended): on the G/R mapping, iterating the set as
`['R', 'G']` yields the mapping in that iteration order, with keys
`['R', 'G']`. -/
theorem c8_requested_set_iteration_order_witness :
    applyUse (some ['R', 'G']) [('G', [['C', '1', 'C']]), ('R', [['C', '2', 'C']])] =
      .ok [('R', [['C', '2', 'C']]), ('G', [['C', '1', 'C']])]
    ∧ ([('R', [['C', '2', 'C']]), ('G', [['C', '1', 'C']])] : Fields).map
        (fun kv => kv.1) = ['R', 'G'] :=
  ⟨(c8_requested_set_iteration_order ['R', 'G']
      [('G', [['C', '1', 'C']]), ('R', [['C', '2', 'C']])]
      (by decide) ⟨'R', by decide, by decide⟩).1,
   rfl⟩

/-- Counterexample to C8 as stated: `['R', 'G']` is a permutation of the
caller's request `['G', 'R']` — a legitimate iteration order of the
Python set `{'G', 'R'}` — yet the restricted mapping comes out in the
order `['R', 'G']`, not the caller's `['G', 'R']`. -/
theorem c8_caller_order_counterexample :
    List.Perm ['R', 'G'] ['G', 'R']
    ∧ applyUse (some ['R', 'G']) [('G', [['C', '1', 'C']]), ('R', [['C', '2', 'C']])] =
        .ok [('R', [['C', '2', 'C']]), ('G', [['C', '1', 'C']])]
    ∧ (['R', 'G'] : List Char) ≠ ['G', 'R'] :=
  ⟨by decide, rfl, by decide⟩

/-- Counterexample to C2 as stated: system G declares one code `C1C`
while `Fmax = 2` (some other system declares two codes).  Requesting
prefix `"C1"` retains exactly `["C1C"]`, but the mask is allocated with
`np.empty(Fmax * 3)` and only its first `3 * len(ind)` slots are written:
the remaining three slots keep whatever uninitialised contents `np.empty`
produced (here all-true), so the mask's true-count is 6, not
`3 * 1 = 3`. -/
theorem c2_measurement_filter_counterexample :
    applyMeas (some [['C', '1']]) [('G', [['C', '1', 'C']])] 2 (fun _ => true) =
      ([('G', [['C', '1', 'C']])],
       some [('G', [true, true, true, true, true, true])])
    ∧ ([true, true, true, true, true, true].count true ≠
        3 * ([['C', '1', 'C']] : List Code).length) :=
  ⟨rfl, by decide⟩

/-- Claim C2, amended.  Requesting a list of code prefixes retains, for
each system, exactly the declared codes starting with one of the
prefixes, in their original relative order (`List.filter`), and the
mask's slots within the first `3 * N` positions (`N` the system's
declared code count) are the retention flag of the corresponding code
repeated three times, so the true-count *over those positions* is three
times the retained subset's size.  The slots beyond `3 * N` (up to
`Fmax * 3`) come from `np.empty` and are unspecified, so the full-mask
true-count claim fails (see the counterexample). -/
theorem c2_measurement_filter_amended (ms : List Code) (fields : Fields)
    (fmax : Int) (g : Nat → Bool) (k : Char) (codes : List Code)
    (h : alookup fields k = some codes) :
    alookup (applyMeas (some ms) fields fmax g).1 k =
      some (codes.filter (fun c => ms.any (fun m => m.isPrefixOf c)))
    ∧ (∀ masks, (applyMeas (some ms) fields fmax g).2 = some masks →
        alookup masks k = some (maskOf (measInd ms codes) fmax g))
    ∧ ((maskOf (measInd ms codes) fmax g).take (3 * codes.length)).count true =
        3 * (codes.filter (fun c => ms.any (fun m => m.isPrefixOf c))).length := by
  refine ⟨?_, ?_, ?_⟩
  · show alookup (fields.map
        (fun kv => (kv.1, kv.2.filter (fun c => ms.any (fun m => m.isPrefixOf c))))) k = _
    rw [alookup_map_val (fun v => v.filter (fun c => ms.any (fun m => m.isPrefixOf c)))
      fields k]
    rw [h]
    rfl
  · intro masks hm
    simp only [applyMeas, Option.some.injEq] at hm
    subst hm
    rw [alookup_map_val (fun v => maskOf (measInd ms v) fmax g) fields k]
    rw [h]
    rfl
  · have hlen : ((measInd ms codes).flatMap (fun b => [b, b, b])).length =
        3 * codes.length := by
      rw [length_tripled]
      simp [measInd]
    have htake : (maskOf (measInd ms codes) fmax g).take (3 * codes.length) =
        (measInd ms codes).flatMap (fun b => [b, b, b]) := by
      unfold maskOf
      rw [← hlen]
      exact List.take_left _ _
    rw [htake, count_tripled]
    unfold measInd
    rw [count_true_map]

/-- Witness for C2 (amended): for the concrete G system declaring
`C1C, L1C, C1W` with `Fmax = 4` and requested prefix list `["C1"]`, the
retained codes are `[C1C, C1W]` in order and the first `3 * 3` mask slots
hold six trues. -/
theorem c2_measurement_filter_amended_witness :
    alookup (applyMeas (some [['C', '1']])
        [('G', [['C', '1', 'C'], ['L', '1', 'C'], ['C', '1', 'W']])] 4
        (fun _ => false)).1 'G' =
      some [['C', '1', 'C'], ['C', '1', 'W']]
    ∧ ((maskOf (measInd [['C', '1']]
          [['C', '1', 'C'], ['L', '1', 'C'], ['C', '1', 'W']]) 4
          (fun _ => false)).take (3 * 3)).count true = 3 * 2 :=
  ⟨(c2_measurement_filter_amended [['C', '1']]
      [('G', [['C', '1', 'C'], ['L', '1', 'C'], ['C', '1', 'W']])] 4
      (fun _ => false) 'G' [['C', '1', 'C'], ['L', '1', 'C'], ['C', '1', 'W']] rfl).1,
   (c2_measurement_filter_amended [['C', '1']]
      [('G', [['C', '1', 'C'], ['L', '1', 'C'], ['C', '1', 'W']])] 4
      (fun _ => false) 'G' [['C', '1', 'C'], ['L', '1', 'C'], ['C', '1', 'W']] rfl).2.2⟩

/-- Claim C9 (confirmed): with indicator extraction enabled, the column
names a system's per-epoch table acquires are, per retained code `k` in
order: the value column `k`, then `k ++ "lli"` exactly when `k` starts
with `"L1"` or `"L2"`, then `k ++ "ssi"` unconditionally; in the concrete
instance `C1C` yields no LLI column while `L1C` yields both. -/
theorem c9_indicator_columns :
    (∀ (α : Type) (codes : List Code) (i0 : Nat) (vals : Nat → α × α × α) (x : Code),
        x ∈ dsfKeys (buildDsf true codes i0 vals []) ↔
          x ∈ codes.flatMap
            (fun k => [k] ++ (if isL12 k then [k ++ lliSuf] else []) ++ [k ++ ssiSuf]))
    ∧ dsfKeys (buildDsf true [['C', '1', 'C'], ['L', '1', 'C']] 0
          (fun _ => ((0 : Int), 0, 0)) []) =
        [['C', '1', 'C'], ['C', '1', 'C', 's', 's', 'i'],
         ['L', '1', 'C'], ['L', '1', 'C', 'l', 'l', 'i'],
         ['L', '1', 'C', 's', 's', 'i']] := by
  constructor
  · intro α codes i0 vals x
    rw [mem_dsfKeys_buildDsf]
    simp [dsfKeys]
  · rfl

/-- Claim C10 (confirmed): the measurement filter is disabled — the
normalised argument is `None` — exactly when `meas` is `None`, the empty
list, or a list whose *first* element strips to blank; in particular
`[" ", "C1C"]` disables filtering although the later element is a valid
prefix, and a `None` measurement argument makes `obsheader3` keep every
system's code list untouched with the select-everything mask. -/
theorem c10_meas_normalisation :
    (∀ om : Option (List Code),
        normalizeMeas om = none ↔
          om = none ∨ om = some [] ∨
            ∃ m rest, om = some (m :: rest) ∧ stripWs m = [])
    ∧ (∀ (fields : Fields) (fmax : Int) (g : Nat → Bool),
        applyMeas none fields fmax g = (fields, none))
    ∧ normalizeMeas (some [[' '], ['C', '1', 'C']]) = none := by
  refine ⟨?_, fun fields fmax g => rfl, by decide⟩
  intro om
  match om with
  | none => simp [normalizeMeas]
  | some [] => simp [normalizeMeas]
  | some (m :: rest) =>
    simp only [normalizeMeas]
    constructor
    · intro hN
      by_cases h : stripWs m = []
      · exact Or.inr (Or.inr ⟨m, rest, rfl, h⟩)
      · rw [if_neg h] at hN
        exact Option.noConfusion hN
    · rintro (h | h | ⟨m2, rest2, hEq, hs⟩)
      · exact Option.noConfusion h
      · simp at h
      · have hm : m = m2 := by
          injection hEq with h2
          injection h2 with h3 h4
        rw [if_pos (hm ▸ hs)]

end Georinex
